import Mathlib

set_option maxHeartbeats 1000000

/-!
Shallow embedding of the `bank-csv` crate (files `src/lib.rs` and `src/main.rs`).

Rust strings are modelled as lists of characters (`Str`).  Rust's `str::find`
returns a byte index while the model returns a character index; since every
index produced by `find` lies on a character boundary and byte offsets are
strictly monotone in character offsets, the two views agree on containment,
on the relative order of match positions, and on the content of every slice
taken between two match positions, which is all the code below uses.
`NaiveDate` values are modelled by their day number (`Nat`), on which the
chronological order is the numeric order.
-/

/-- A Rust string, seen as its sequence of characters. -/
abbrev Str := List Char

/-- `enum Source` from `src/lib.rs`: the origin of a CSV file. -/
inductive Source where
  /-- N26 CSV -/
  | N26 : Source
  /-- PayPal CSV -/
  | PayPal : Source
  /-- DKB CSV -/
  | DKB : Source
deriving DecidableEq, Repr

/-- Rust `str::find(pattern)`: index of the first occurrence of `pat` in
`hay`, or `none`.  (Character index; see the header comment.) -/
def rfind : Str → Str → Option Nat
  | hay, pat =>
    if pat.isPrefixOf hay then some 0
    else
      match hay with
      | [] => none
      | _ :: t => (rfind t pat).map (fun n => n + 1)

/-- Rust `str::contains(pattern)` for a string pattern. -/
def rcontains (hay pat : Str) : Bool := (rfind hay pat).isSome

/-- Rust `char::is_whitespace` restricted to the ASCII whitespace characters,
the only ones that can border a DKB amount. -/
def isRustWhitespace (c : Char) : Bool :=
  c == ' ' || c == '\t' || c == '\n' || c == '\r'

/-- Rust `str::trim`: drop whitespace from both ends. -/
def rustTrim (s : Str) : Str :=
  ((s.dropWhile isRustWhitespace).reverse.dropWhile isRustWhitespace).reverse

/-- Result of `detect_separator` (`src/lib.rs`, lines 84-118).  `ok` carries
the detected delimiter and the optional quirky-source hint; the two error
constructors model the two `io::Error` values built in the function. -/
inductive SepResult where
  /-- A separator was found in the first line. -/
  | ok : Char → Option Source → SepResult
  /-- "No separator found in the first line" (`ErrorKind::NotFound`). -/
  | noSeparatorFound : SepResult
  /-- "Error reading the first line" (`ErrorKind::InvalidData`),
  raised when the file yields no first line. -/
  | emptyOrUnreadable : SepResult
deriving DecidableEq, Repr

/-- `detect_separator` from `src/lib.rs`.  The file is abstracted to its
first line (`none` when the file has no first line). -/
def detect_separator (firstLine : Option Str) : SepResult :=
  match firstLine with
  | none => .emptyOrUnreadable
  | some line =>
    let source : Option Source :=
      if rcontains line "Girokonto".data then some Source.DKB else none
    if line.contains ';' then .ok ';' source
    else if line.contains ',' then .ok ',' source
    else if line.contains '\t' then .ok '\t' source
    else .noSeparatorFound

/-- The header-marker substring scanned for by `dkb_edit_file`. -/
def verwendungszweck : Str := "Verwendungszweck".data

/-- The line loop of `dkb_edit_file` (`src/lib.rs`, lines 139-147): once a
line containing the marker is seen, `writeLines` latches to `true` and every
line from that point on is emitted. -/
def dkbEditLoop (writeLines : Bool) : List Str → List Str
  | [] => []
  | line :: rest =>
    let w := if rcontains line verwendungszweck then true else writeLines
    if w then line :: dkbEditLoop w rest else dkbEditLoop w rest

/-- `dkb_edit_file` from `src/lib.rs`, abstracted over I/O: the input is the
list of decoded (ISO-8859-10) lines of the original file, the result is the
list of lines written to the temporary file. -/
def dkb_edit_file (decodedLines : List Str) : List Str :=
  dkbEditLoop false decodedLines

/-- The guard marker of `dkb_extract_amount`: the memo must mention an
exchange rate (`" 1 Euro="`) before any extraction is attempted. -/
def euroMarker : Str := " 1 Euro=".data

/-- `original_keyword` in `dkb_extract_amount`. -/
def originalKeyword : Str := "Original ".data

/-- `fremdwaehrung` in `dkb_extract_amount`: the long-form keyword of the
later DKB export revision. -/
def fremdwaehrung : Str := "Ursprungsbetrag in Fremdwährung ".data

/-- The tail of `dkb_extract_amount` (`src/lib.rs`, lines 334-342) once the
keyword position `startOpt` and its length `wordLength` are known: locate the
currency, reject when it is not strictly after the keyword start, then trim
the slice between the end of the keyword and the currency. -/
def dkbExtractAfter (currency memo : Str) (startOpt : Option Nat)
    (wordLength : Nat) : Option Str :=
  match startOpt with
  | none => none
  | some start =>
    match rfind memo currency with
    | none => none
    | some e =>
      if e ≤ start then none
      else
        let amountStart := start + wordLength
        some (rustTrim ((memo.drop amountStart).take (e - amountStart)))

/-- `dkb_extract_amount` from `src/lib.rs` (lines 314-343).  Note that when
the currency's first occurrence falls strictly inside the keyword itself
(`start < e < start + wordLength`) the Rust slice `&memo[amount_start..end]`
would panic; the theorems below never touch that region, their hypotheses
place the currency at or after the end of the keyword. -/
def dkb_extract_amount (currency memo : Str) : Option Str :=
  if rcontains memo euroMarker = false then none
  else if rcontains memo originalKeyword then
    dkbExtractAfter currency memo (rfind memo originalKeyword)
      originalKeyword.length
  else if rcontains memo fremdwaehrung then
    dkbExtractAfter currency memo (rfind memo fremdwaehrung)
      fremdwaehrung.length
  else none

/-- Rust `str::strip_prefix(char)`: `some` of the remainder when the string
starts with `c`, else `none`. -/
def rstripFirst (c : Char) (s : Str) : Option Str :=
  match s with
  | x :: rest => if x = c then some rest else none
  | [] => none

/-- Rust `str::strip_suffix(char)`: `some` of the string without its last
character when that character is `c`, else `none`. -/
def rstripLast (c : Char) (s : Str) : Option Str :=
  if s.getLast? = some c then some s.dropLast else none

/-- `strip_quotes` from `src/lib.rs` (lines 410-416).  Both `unwrap_or`
fallbacks are the ORIGINAL string `s`, faithfully reproduced here. -/
def strip_quotes (s : Str) : Str :=
  let afterFirst := (rstripFirst '"' s).getD s
  (rstripLast '"' afterFirst).getD s

/-- `String::replace(CHAR_DOT, CHAR_COMMA)` on the amount in
`CsvOutputRow::new`: both patterns are single characters. -/
def dotToComma (s : Str) : Str := s.map (fun c => if c = '.' then ',' else c)

/-- `struct CsvOutputRow` from `src/lib.rs` (lines 346-362); the date is the
day number of the `NaiveDate`. -/
structure CsvOutputRow where
  /-- The date of the transaction, as its day number. -/
  date : Nat
  /-- The source of the transaction (PayPal, N26, DKB). -/
  source : Str
  /-- The currency of the transaction. -/
  currency : Str
  /-- The amount of the transaction. -/
  amount : Str
  /-- The type of the transaction. -/
  transaction_type : Str
  /-- The payee of the transaction. -/
  payee : Str
  /-- The memo or description of the transaction. -/
  memo : Str
deriving DecidableEq, Repr

/-- `CsvOutputRow::new` from `src/lib.rs` (lines 420-448): strip one layer of
quotes from every text field, default an empty or `"null"` currency to
`"EUR"`, and turn the decimal dot of the amount into a comma. -/
def CsvOutputRow.new (date : Nat)
    (source currency amount transaction_type payee memo : Str) :
    CsvOutputRow :=
  let stripped := strip_quotes currency
  let finalCurrency :=
    if stripped = [] ∨ stripped = "null".data then "EUR".data else stripped
  { date := date
    source := source
    currency := finalCurrency
    amount := dotToComma (strip_quotes amount)
    transaction_type := strip_quotes transaction_type
    payee := strip_quotes payee
    memo := strip_quotes memo }

/-- The `direction` chosen by `impl Display for CsvOutputRow`
(`src/lib.rs`, lines 390-394): `"paid to"` when the amount contains a minus
sign, `"from"` otherwise. -/
def displayDirection (amount : Str) : Str :=
  if amount.contains '-' then "paid to".data else "from".data

/-- The `derive(PartialEq)` equality of `CsvOutputRow`: all seven fields are
compared, memo included. -/
def beqRow (a b : CsvOutputRow) : Bool :=
  a.date == b.date && a.source == b.source && a.currency == b.currency &&
    a.amount == b.amount && a.transaction_type == b.transaction_type &&
    a.payee == b.payee && a.memo == b.memo

/-- Integer three-way comparison, the building block of the derived `Ord`s. -/
def natCmp (a b : Nat) : Ordering :=
  if a < b then .lt else if a = b then .eq else .gt

/-- Rust's `Ord` on `String`: lexicographic three-way comparison of the
character sequences (byte order and code-point order agree under UTF-8). -/
def strCmp : Str → Str → Ordering
  | [], [] => .eq
  | [], _ :: _ => .lt
  | _ :: _, [] => .gt
  | a :: as, b :: bs =>
    match natCmp a.toNat b.toNat with
    | .eq => strCmp as bs
    | o => o

/-- `impl Ord for CsvOutputRow` (`src/lib.rs`, lines 370-386): nested
comparison of date, currency, amount, transaction type and payee; `source`
and `memo` do not participate. -/
def CsvOutputRow.cmp (a b : CsvOutputRow) : Ordering :=
  match natCmp a.date b.date with
  | .eq =>
    match strCmp a.currency b.currency with
    | .eq =>
      match strCmp a.amount b.amount with
      | .eq =>
        match strCmp a.transaction_type b.transaction_type with
        | .eq => strCmp a.payee b.payee
        | o => o
      | o => o
    | o => o
  | o => o

/-- The 5-tuple of fields that `CsvOutputRow::cmp` is claimed to order
lexicographically. -/
def rowKey (r : CsvOutputRow) : Nat × Str × Str × Str × Str :=
  (r.date, r.currency, r.amount, r.transaction_type, r.payee)

/-- Specification-side comparison: plain lexicographic order on the 5-tuple,
combined with `Ordering.then`. -/
def lexCmp5 (x y : Nat × Str × Str × Str × Str) : Ordering :=
  (natCmp x.1 y.1).then
    ((strCmp x.2.1 y.2.1).then
      ((strCmp x.2.2.1 y.2.2.1).then
        ((strCmp x.2.2.2.1 y.2.2.2.1).then
          (strCmp x.2.2.2.2 y.2.2.2.2))))

/-- `sorted_vec::SortedSet::push` on the merged transaction set of
`merge_command` (`src/main.rs`, line 185): insert in order; when an element
equal under `CsvOutputRow::cmp` is already present, keep the existing element
and drop the new one. -/
def insertSorted (r : CsvOutputRow) : List CsvOutputRow → List CsvOutputRow
  | [] => [r]
  | x :: xs =>
    match CsvOutputRow.cmp r x with
    | .lt => r :: x :: xs
    | .eq => x :: xs
    | .gt => x :: insertSorted r xs

/-- The per-row post-processing of `merge_command` (`src/main.rs`, lines
134-158): DKB rows get their currency overwritten and, for a foreign
currency, their amount re-extracted from the memo (dropping the row when
extraction fails, re-applying the sign of the original amount field); N26
`"Presentment"` rows get their amount force-prefixed with a minus sign.
The result is the `(currency, amount)` pair, `none` when the row is dropped
(the `continue`). -/
def postProcessRow (source : Source) (upperCurrency : Str)
    (currency amount transaction_type memo : Str) : Option (Str × Str) :=
  if source = Source.DKB then
    if upperCurrency = "EUR".data then some ("EUR".data, amount)
    else
      match dkb_extract_amount upperCurrency memo with
      | none => none
      | some extracted =>
        some (upperCurrency,
          if amount.contains '-' then '-' :: extracted else extracted)
  else if source = Source.N26 ∧ transaction_type = "Presentment".data then
    some (currency, '-' :: amount)
  else
    some (currency, amount)

/-- `NUM_FIRST_COLUMNS` from `src/lib.rs`. -/
def NUM_FIRST_COLUMNS : Nat := 5

/-- `NUM_SELECT_COLUMNS` from `src/lib.rs`. -/
def NUM_SELECT_COLUMNS : Nat := 6

/-- `PAYPAL_COLUMNS` from `src/lib.rs`. -/
def PAYPAL_COLUMNS : List String := ["Date", "Time", "TimeZone", "Name", "Type"]

/-- `PAYPAL_COLUMNS_OLD` from `src/lib.rs`. -/
def PAYPAL_COLUMNS_OLD : List String :=
  ["Date", "Time", "Time Zone", "Description", "Currency"]

/-- `N26_COLUMNS` from `src/lib.rs`. -/
def N26_COLUMNS : List String :=
  ["Date", "Payee", "Account number", "Transaction type", "Payment reference"]

/-- `N26_COLUMNS_2024_09` from `src/lib.rs`. -/
def N26_COLUMNS_2024_09 : List String :=
  ["Booking Date", "Value Date", "Partner Name", "Partner Iban", "Type"]

/-- `DKB_COLUMNS` from `src/lib.rs`. -/
def DKB_COLUMNS : List String :=
  ["Buchungstag", "Wertstellung", "Buchungstext", "Auftraggeber / Begünstigter",
    "Verwendungszweck"]

/-- `DKB_COLUMNS_2024_09` from `src/lib.rs`. -/
def DKB_COLUMNS_2024_09 : List String :=
  ["Buchungsdatum", "Wertstellung", "Status", "Zahlungspflichtige*r",
    "Zahlungsempfänger*in"]

/-- The source-detection and plan-selection logic of `filter_data_frame`
(`src/lib.rs`, lines 163-296), abstracted over polars: the input is the
list of the data frame's column names plus the uppercased target currency,
the output the matched `Source` and the `columns_to_select` array.  `none`
models the `panic!("Unknown CSV format...")` branch.  The polars filtering
and projection applied to the matched frame are external collaborators and
not modelled. -/
def filter_data_frame (columnNames : List String) (upperCurrency : String) :
    Option (Source × List String) :=
  let firstColumns := columnNames.take NUM_FIRST_COLUMNS
  if firstColumns = PAYPAL_COLUMNS then
    some (Source.PayPal,
      ["Date", "Currency", "Gross", "Type", "Name", "Transaction ID"])
  else if firstColumns = PAYPAL_COLUMNS_OLD then
    some (Source.PayPal,
      ["Date", "Currency", "Gross", "Description", "Name", "Transaction ID"])
  else if firstColumns = N26_COLUMNS ∨ firstColumns = N26_COLUMNS_2024_09 then
    let amountColumn :=
      if upperCurrency = "EUR" then "Amount (EUR)"
      else if firstColumns = N26_COLUMNS then "Amount (Foreign Currency)"
      else "Original Amount"
    if firstColumns = N26_COLUMNS then
      some (Source.N26,
        ["Date", "Type Foreign Currency", amountColumn, "Transaction type",
          "Payee", "Payment reference"])
    else
      some (Source.N26,
        ["Booking Date", "Original Currency", amountColumn, "Type",
          "Partner Name", "Payment Reference"])
  else if firstColumns = DKB_COLUMNS then
    some (Source.DKB,
      ["Buchungstag", "Mandatsreferenz", "Betrag (EUR)", "Buchungstext",
        "Auftraggeber / Begünstigter", "Verwendungszweck"])
  else if firstColumns = DKB_COLUMNS_2024_09 then
    some (Source.DKB,
      ["Buchungsdatum", "Mandatsreferenz", "Betrag (€)", "Umsatztyp",
        "Zahlungsempfänger*in", "Verwendungszweck"])
  else none

/-- Sequential composition of two three-way comparisons: compare with `f`
and break ties with `g` (the shape of each `match ... Ordering::Equal`
level of the derived-style `cmp`). -/
def cmpThen {α : Type} (f g : α → α → Ordering) (a b : α) : Ordering :=
  (f a b).then (g a b)

/-- The laws a three-way comparison needs for the sorted-set reasoning:
transitivity of `lt`, substitutivity of `eq` in the first argument, and
antisymmetry via `Ordering.swap`. -/
structure IsLawfulCmp {α : Type} (f : α → α → Ordering) : Prop where
  /-- `lt` results compose transitively. -/
  lt_trans : ∀ {a b c : α}, f a b = .lt → f b c = .lt → f a c = .lt
  /-- Comparison-equal values compare identically against anything. -/
  eq_congr_left : ∀ {a b : α} (c : α), f a b = .eq → f a c = f b c
  /-- Swapping the arguments swaps the result. -/
  cmp_swap : ∀ a b : α, f a b = (f b a).swap

/-- `CsvOutputRow::cmp` re-expressed as a chain of `cmpThen` levels over the
five key fields; proved equal to `CsvOutputRow.cmp` below. -/
def rowCmpKeyed : CsvOutputRow → CsvOutputRow → Ordering :=
  cmpThen (fun a b => natCmp a.date b.date)
    (cmpThen (fun a b => strCmp a.currency b.currency)
      (cmpThen (fun a b => strCmp a.amount b.amount)
        (cmpThen (fun a b => strCmp a.transaction_type b.transaction_type)
          (fun a b => strCmp a.payee b.payee))))

/-- A concrete output row used by the closed witness theorems: early date,
late-sorting text fields. -/
def sampleRowEarly : CsvOutputRow :=
  { date := 1, source := "N26".data, currency := "ZZZ".data,
    amount := "9,99".data, transaction_type := "Z".data, payee := "ZZZ".data,
    memo := "z".data }

/-- A concrete output row used by the closed witness theorems: later date,
early-sorting text fields. -/
def sampleRowLate : CsvOutputRow :=
  { date := 2, source := "DKB".data, currency := "AAA".data,
    amount := "0,01".data, transaction_type := "A".data, payee := "AAA".data,
    memo := "a".data }

theorem dkbEditLoop_true (ls : List Str) : dkbEditLoop true ls = ls := by
  induction ls with
  | nil => rfl
  | cons l rest ih =>
    unfold dkbEditLoop
    by_cases h : rcontains l verwendungszweck <;> simp [h, ih]

/-- C6: `detect_separator` returns a delimiter among semicolon, comma and tab
that occurs in the first line; it fails with the no-separator-found error
exactly when none of the three candidates occurs in the first line, and with
the empty/unreadable-file error exactly when the file has no first line. -/
theorem c6_detect_separator :
    (∀ (l : Str) (sep : Char) (src : Option Source),
      detect_separator (some l) = .ok sep src →
      (sep = ';' ∨ sep = ',' ∨ sep = '\t') ∧ sep ∈ l) ∧
    (∀ l : Str,
      detect_separator (some l) = .noSeparatorFound ↔
        (';' ∉ l ∧ ',' ∉ l ∧ '\t' ∉ l)) ∧
    (∀ firstLine : Option Str,
      detect_separator firstLine = .emptyOrUnreadable ↔ firstLine = none) := by
  refine ⟨?_, ?_, ?_⟩
  · intro l sep src h
    simp only [detect_separator] at h
    split at h
    next hcond =>
      injection h with hsep hsrc
      subst hsep
      exact ⟨Or.inl rfl, List.elem_iff.mp hcond⟩
    next =>
      split at h
      next hcond =>
        injection h with hsep hsrc
        subst hsep
        exact ⟨Or.inr (Or.inl rfl), List.elem_iff.mp hcond⟩
      next =>
        split at h
        next hcond =>
          injection h with hsep hsrc
          subst hsep
          exact ⟨Or.inr (Or.inr rfl), List.elem_iff.mp hcond⟩
        next => exact absurd h (by simp)
  · intro l
    simp only [detect_separator]
    by_cases h1 : ';' ∈ l <;> by_cases h2 : ',' ∈ l <;>
      by_cases h3 : '\t' ∈ l <;> simp [h1, h2, h3]
  · intro firstLine
    cases firstLine with
    | none => simp [detect_separator]
    | some l =>
      simp only [detect_separator, Option.some_ne_none, iff_false]
      by_cases h1 : ';' ∈ l <;> by_cases h2 : ',' ∈ l <;>
        by_cases h3 : '\t' ∈ l <;> simp [h1, h2, h3]

/-- Closed instance of `c6_detect_separator` at a concrete first line. -/
theorem c6_detect_separator_witness :
    detect_separator (some "a;b".data) = .ok ';' none ∧
    ((';' = ';' ∨ ';' = ',' ∨ ';' = '\t') ∧ ';' ∈ "a;b".data) ∧
    (detect_separator (some "a b".data) = .noSeparatorFound ↔
      (';' ∉ "a b".data ∧ ',' ∉ "a b".data ∧ '\t' ∉ "a b".data)) ∧
    (detect_separator (none : Option Str) = .emptyOrUnreadable ↔
      (none : Option Str) = none) :=
  ⟨by decide, c6_detect_separator.1 "a;b".data ';' none (by decide),
    c6_detect_separator.2.1 "a b".data,
    c6_detect_separator.2.2 (none : Option Str)⟩

/-- C7: `dkb_edit_file` emits exactly the decoded lines from the first line
containing the `"Verwendungszweck"` marker onward; when no line contains the
marker the output is empty (no error is raised — the function is total). -/
theorem c7_dkb_edit_file :
    (∀ ls : List Str,
      (∀ l ∈ ls, rcontains l verwendungszweck = false) →
      dkb_edit_file ls = []) ∧
    (∀ (pre : List Str) (l : Str) (post : List Str),
      (∀ x ∈ pre, rcontains x verwendungszweck = false) →
      rcontains l verwendungszweck = true →
      dkb_edit_file (pre ++ l :: post) = l :: post) := by
  constructor
  · intro ls h
    unfold dkb_edit_file
    induction ls with
    | nil => rfl
    | cons x rest ih =>
      have hx : rcontains x verwendungszweck = false := h x (by simp)
      unfold dkbEditLoop
      simp only [hx, if_false, Bool.false_eq_true]
      exact ih fun y hy => h y (by simp [hy])
  · intro pre l post hpre hl
    unfold dkb_edit_file
    induction pre with
    | nil =>
      simp only [List.nil_append]
      unfold dkbEditLoop
      simp [hl, dkbEditLoop_true]
    | cons x rest ih =>
      have hx : rcontains x verwendungszweck = false := hpre x (by simp)
      simp only [List.cons_append]
      unfold dkbEditLoop
      simp only [hx, if_false, Bool.false_eq_true]
      exact ih fun y hy => hpre y (by simp [hy])

/-- Closed instance of `c7_dkb_edit_file` with one discarded preamble line. -/
theorem c7_dkb_edit_file_witness :
    (∀ x ∈ ["Girokonto junk".data], rcontains x verwendungszweck = false) ∧
    rcontains "A;Verwendungszweck;B".data verwendungszweck = true ∧
    dkb_edit_file
        (["Girokonto junk".data] ++ "A;Verwendungszweck;B".data :: ["row".data])
      = "A;Verwendungszweck;B".data :: ["row".data] :=
  ⟨by decide, by decide,
    c7_dkb_edit_file.2 ["Girokonto junk".data] "A;Verwendungszweck;B".data
      ["row".data] (by decide) (by decide)⟩

/-- C10: whenever the memo does not contain the substring `" 1 Euro="`,
`dkb_extract_amount` returns `none`, whatever else the memo contains. -/
theorem c10_no_euro_marker_no_extraction :
    ∀ currency memo : Str, rcontains memo euroMarker = false →
      dkb_extract_amount currency memo = none := by
  intro currency memo h
  simp [dkb_extract_amount, h]

/-- Closed instance of `c10_no_euro_marker_no_extraction`: the memo contains
the keyword phrase followed by the currency, yet extraction yields `none`. -/
theorem c10_no_euro_marker_witness :
    rcontains "Original 5,00 BRL".data euroMarker = false ∧
    rcontains "Original 5,00 BRL".data originalKeyword = true ∧
    rfind "Original 5,00 BRL".data "BRL".data = some 14 ∧
    dkb_extract_amount "BRL".data "Original 5,00 BRL".data = none :=
  ⟨by decide, by decide, by decide,
    c10_no_euro_marker_no_extraction "BRL".data "Original 5,00 BRL".data
      (by decide)⟩

/-- C1: under the exchange-rate guard, `dkb_extract_amount` returns the
trimmed substring between the keyword phrase (`"Original "`, or the later
long-form phrase when `"Original "` is absent) and the currency code;
it returns `none` when the currency is not found and when the currency
position is not after the keyword start; the two concrete examples of the
claim evaluate as stated. -/
theorem c1_dkb_extract_amount :
    (∀ (currency memo : Str) (start : Nat),
      rcontains memo euroMarker = true →
      rfind memo originalKeyword = some start →
      ((rfind memo currency = none →
          dkb_extract_amount currency memo = none) ∧
        (∀ e, rfind memo currency = some e → e ≤ start →
          dkb_extract_amount currency memo = none) ∧
        (∀ e, rfind memo currency = some e →
          start + originalKeyword.length ≤ e →
          dkb_extract_amount currency memo =
            some (rustTrim ((memo.drop (start + originalKeyword.length)).take
              (e - (start + originalKeyword.length))))))) ∧
    (∀ (currency memo : Str) (start : Nat),
      rcontains memo euroMarker = true →
      rcontains memo originalKeyword = false →
      rfind memo fremdwaehrung = some start →
      ((rfind memo currency = none →
          dkb_extract_amount currency memo = none) ∧
        (∀ e, rfind memo currency = some e → e ≤ start →
          dkb_extract_amount currency memo = none) ∧
        (∀ e, rfind memo currency = some e →
          start + fremdwaehrung.length ≤ e →
          dkb_extract_amount currency memo =
            some (rustTrim ((memo.drop (start + fremdwaehrung.length)).take
              (e - (start + fremdwaehrung.length))))))) ∧
    dkb_extract_amount "BRL".data
        "2023-12-12 Debitk.44 Original 6,99 BRL 1 Euro=5,29545460 BRL VISA Debit".data
      = some "6,99".data ∧
    dkb_extract_amount "BRL".data "Nothing here".data = none := by
  refine ⟨?_, ?_, by decide, by decide⟩
  · intro currency memo start h1 h2
    have hc : rcontains memo originalKeyword = true := by
      simp [rcontains, h2]
    refine ⟨?_, ?_, ?_⟩
    · intro hfind
      simp [dkb_extract_amount, h1, hc, h2, dkbExtractAfter, hfind]
    · intro e hfind he
      simp [dkb_extract_amount, h1, hc, h2, dkbExtractAfter, hfind, he]
    · intro e hfind he
      have hgt : ¬ e ≤ start := by
        have : 0 < originalKeyword.length := by decide
        omega
      simp [dkb_extract_amount, h1, hc, h2, dkbExtractAfter, hfind, hgt]
  · intro currency memo start h1 hno h2
    have hc : rcontains memo fremdwaehrung = true := by
      simp [rcontains, h2]
    refine ⟨?_, ?_, ?_⟩
    · intro hfind
      simp [dkb_extract_amount, h1, hno, hc, h2, dkbExtractAfter, hfind]
    · intro e hfind he
      simp [dkb_extract_amount, h1, hno, hc, h2, dkbExtractAfter, hfind, he]
    · intro e hfind he
      have hgt : ¬ e ≤ start := by
        have : 0 < fremdwaehrung.length := by decide
        omega
      simp [dkb_extract_amount, h1, hno, hc, h2, dkbExtractAfter, hfind, hgt]

/-- Closed instance of `c1_dkb_extract_amount` on a small memo: the keyword
starts at 10, the currency at 21, and the extracted amount is the trimmed
slice between positions 19 and 21. -/
theorem c1_dkb_extract_amount_witness :
    rcontains "a 1 Euro= Original 9 USD".data euroMarker = true ∧
    rfind "a 1 Euro= Original 9 USD".data originalKeyword = some 10 ∧
    rfind "a 1 Euro= Original 9 USD".data "USD".data = some 21 ∧
    10 + originalKeyword.length ≤ 21 ∧
    dkb_extract_amount "USD".data "a 1 Euro= Original 9 USD".data =
      some (rustTrim
        ((("a 1 Euro= Original 9 USD".data).drop
          (10 + originalKeyword.length)).take
            (21 - (10 + originalKeyword.length)))) :=
  ⟨by decide, by decide, by decide, by decide,
    (c1_dkb_extract_amount.1 "USD".data "a 1 Euro= Original 9 USD".data 10
      (by decide) (by decide)).2.2 21 (by decide) (by decide)⟩

theorem natCmp_refl (a : Nat) : natCmp a a = .eq := by
  simp [natCmp]

theorem natCmp_lt_iff {a b : Nat} : natCmp a b = .lt ↔ a < b := by
  unfold natCmp
  split
  next h => simp [h]
  next h =>
    split
    next h2 => simp; omega
    next h2 => simp; omega

theorem natCmp_eq_iff {a b : Nat} : natCmp a b = .eq ↔ a = b := by
  unfold natCmp
  split
  next h => simp; omega
  next h =>
    split
    next h2 => simp [h2]
    next h2 => simp [h2]

theorem natCmp_swap (a b : Nat) : natCmp a b = (natCmp b a).swap := by
  unfold natCmp
  rcases Nat.lt_trichotomy a b with h | h | h
  · rw [if_pos h, if_neg (by omega), if_neg (by omega)]
    rfl
  · subst h
    rw [if_neg (by omega), if_pos rfl]
    rfl
  · rw [if_neg (by omega), if_neg (by omega), if_pos h]
    rfl

theorem natCmp_lawful : IsLawfulCmp natCmp := by
  constructor
  · intro a b c h1 h2
    exact natCmp_lt_iff.mpr
      (Nat.lt_trans (natCmp_lt_iff.mp h1) (natCmp_lt_iff.mp h2))
  · intro a b c h
    rw [natCmp_eq_iff.mp h]
  · exact natCmp_swap

theorem strCmp_refl (s : Str) : strCmp s s = .eq := by
  induction s with
  | nil => rfl
  | cons c t ih => simp [strCmp, natCmp_refl, ih]

theorem strCmp_swap (a : Str) : ∀ b : Str, strCmp a b = (strCmp b a).swap := by
  induction a with
  | nil => intro b; cases b <;> rfl
  | cons x as ih =>
    intro b
    cases b with
    | nil => rfl
    | cons y bs =>
      simp only [strCmp]
      rw [natCmp_swap x.toNat y.toNat]
      cases h : natCmp y.toNat x.toNat <;> simp [Ordering.swap, ih bs]

theorem strCmp_lt_trans : ∀ {a b c : Str},
    strCmp a b = .lt → strCmp b c = .lt → strCmp a c = .lt := by
  intro a
  induction a with
  | nil =>
    intro b c hab hbc
    cases b with
    | nil => exact hbc
    | cons y bs =>
      cases c with
      | nil => simp [strCmp] at hbc
      | cons z cs => rfl
  | cons x as ih =>
    intro b c hab hbc
    cases b with
    | nil => simp [strCmp] at hab
    | cons y bs =>
      cases c with
      | nil => simp [strCmp] at hbc
      | cons z cs =>
        simp only [strCmp] at hab hbc ⊢
        cases h1 : natCmp x.toNat y.toNat <;> rw [h1] at hab
        · cases h2 : natCmp y.toNat z.toNat <;> rw [h2] at hbc
          · have hxz : natCmp x.toNat z.toNat = .lt := by
              have hxy := natCmp_lt_iff.mp h1
              have hyz := natCmp_lt_iff.mp h2
              exact natCmp_lt_iff.mpr (by omega)
            rw [hxz]
          · have hxz : natCmp x.toNat z.toNat = .lt := by
              have hxy := natCmp_lt_iff.mp h1
              have hyz := natCmp_eq_iff.mp h2
              exact natCmp_lt_iff.mpr (by omega)
            rw [hxz]
          · exact absurd hbc (by simp)
        · cases h2 : natCmp y.toNat z.toNat <;> rw [h2] at hbc
          · have hxz : natCmp x.toNat z.toNat = .lt := by
              have hxy := natCmp_eq_iff.mp h1
              have hyz := natCmp_lt_iff.mp h2
              exact natCmp_lt_iff.mpr (by omega)
            rw [hxz]
          · have hxz : natCmp x.toNat z.toNat = .eq := by
              have hxy := natCmp_eq_iff.mp h1
              have hyz := natCmp_eq_iff.mp h2
              exact natCmp_eq_iff.mpr (by omega)
            rw [hxz]
            exact ih hab hbc
          · exact absurd hbc (by simp)
        · exact absurd hab (by simp)

theorem strCmp_eq_congr_left : ∀ {a b : Str} (c : Str),
    strCmp a b = .eq → strCmp a c = strCmp b c := by
  intro a
  induction a with
  | nil =>
    intro b c hab
    cases b with
    | nil => rfl
    | cons y bs => simp [strCmp] at hab
  | cons x as ih =>
    intro b c hab
    cases b with
    | nil => simp [strCmp] at hab
    | cons y bs =>
      simp only [strCmp] at hab
      cases h1 : natCmp x.toNat y.toNat <;> rw [h1] at hab
      · exact absurd hab (by simp)
      · have hxy := natCmp_eq_iff.mp h1
        cases c with
        | nil => rfl
        | cons z cs =>
          simp only [strCmp]
          rw [hxy]
          cases h2 : natCmp y.toNat z.toNat
          · rfl
          · exact ih cs hab
          · rfl
      · exact absurd hab (by simp)

theorem strCmp_lawful : IsLawfulCmp strCmp := by
  constructor
  · intro a b c h1 h2
    exact strCmp_lt_trans h1 h2
  · intro a b c h
    exact strCmp_eq_congr_left c h
  · exact strCmp_swap

theorem IsLawfulCmp.refl_eq {α : Type} {f : α → α → Ordering}
    (hf : IsLawfulCmp f) (a : α) : f a a = .eq := by
  have h := hf.cmp_swap a a
  cases he : f a a
  · rw [he] at h
    exact absurd h (by decide)
  · rfl
  · rw [he] at h
    exact absurd h (by decide)

theorem IsLawfulCmp.eq_symm {α : Type} {f : α → α → Ordering}
    (hf : IsLawfulCmp f) {a b : α} (h : f a b = .eq) : f b a = .eq := by
  have hs := hf.cmp_swap a b
  rw [h] at hs
  cases he : f b a
  · rw [he] at hs
    exact absurd hs (by decide)
  · rfl
  · rw [he] at hs
    exact absurd hs (by decide)

theorem IsLawfulCmp.eq_congr_right {α : Type} {f : α → α → Ordering}
    (hf : IsLawfulCmp f) (a : α) {b c : α} (h : f b c = .eq) :
    f a b = f a c := by
  rw [hf.cmp_swap a b, hf.cmp_swap a c,
    hf.eq_congr_left a (hf.eq_symm h)]

theorem IsLawfulCmp.gt_iff {α : Type} {f : α → α → Ordering}
    (hf : IsLawfulCmp f) (a b : α) : f a b = .gt ↔ f b a = .lt := by
  rw [hf.cmp_swap a b]
  cases f b a <;> simp [Ordering.swap]

theorem IsLawfulCmp.comap {α β : Type} {f : β → β → Ordering}
    (hf : IsLawfulCmp f) (p : α → β) :
    IsLawfulCmp (fun a b => f (p a) (p b)) := by
  constructor
  · intro a b c h1 h2
    exact hf.lt_trans h1 h2
  · intro a b c h
    exact hf.eq_congr_left (p c) h
  · intro a b
    exact hf.cmp_swap (p a) (p b)

theorem IsLawfulCmp.cmpThen_lawful {α : Type} {f g : α → α → Ordering}
    (hf : IsLawfulCmp f) (hg : IsLawfulCmp g) : IsLawfulCmp (cmpThen f g) := by
  constructor
  · intro a b c h1 h2
    unfold cmpThen at h1 h2 ⊢
    cases hfab : f a b <;> rw [hfab] at h1
    · cases hfbc : f b c <;> rw [hfbc] at h2
      · rw [hf.lt_trans hfab hfbc]
        rfl
      · rw [(hf.eq_congr_right a hfbc).symm.trans hfab]
        rfl
      · exact absurd h2 (by simp [Ordering.then])
    · cases hfbc : f b c <;> rw [hfbc] at h2
      · rw [(hf.eq_congr_left c hfab).trans hfbc]
        rfl
      · have hfac : f a c = .eq := (hf.eq_congr_left c hfab).trans hfbc
        rw [hfac]
        have hg1 : g a b = .lt := h1
        have hg2 : g b c = .lt := h2
        have := hg.lt_trans hg1 hg2
        simpa [Ordering.then] using this
      · exact absurd h2 (by simp [Ordering.then])
    · exact absurd h1 (by simp [Ordering.then])
  · intro a b c hab
    unfold cmpThen at hab ⊢
    have hsplit : f a b = .eq ∧ g a b = .eq := by
      cases hfab : f a b <;> rw [hfab] at hab
      · exact absurd hab (by simp [Ordering.then])
      · exact ⟨rfl, hab⟩
      · exact absurd hab (by simp [Ordering.then])
    obtain ⟨hfe, hge⟩ := hsplit
    rw [hf.eq_congr_left c hfe, hg.eq_congr_left c hge]
  · intro a b
    unfold cmpThen
    rw [hf.cmp_swap a b, hg.cmp_swap a b]
    cases f b a <;> cases g b a <;> rfl

theorem rowCmp_eq_keyed (a b : CsvOutputRow) :
    CsvOutputRow.cmp a b = rowCmpKeyed a b := by
  simp only [CsvOutputRow.cmp, rowCmpKeyed, cmpThen]
  cases natCmp a.date b.date <;> cases strCmp a.currency b.currency <;>
    cases strCmp a.amount b.amount <;>
    cases strCmp a.transaction_type b.transaction_type <;> rfl

theorem rowCmp_lawful : IsLawfulCmp CsvOutputRow.cmp := by
  have hk : IsLawfulCmp rowCmpKeyed := by
    unfold rowCmpKeyed
    exact IsLawfulCmp.cmpThen_lawful (natCmp_lawful.comap _)
      (IsLawfulCmp.cmpThen_lawful (strCmp_lawful.comap _)
        (IsLawfulCmp.cmpThen_lawful (strCmp_lawful.comap _)
          (IsLawfulCmp.cmpThen_lawful (strCmp_lawful.comap _)
            (strCmp_lawful.comap _))))
  constructor
  · intro a b c h1 h2
    rw [rowCmp_eq_keyed] at h1 h2 ⊢
    exact hk.lt_trans h1 h2
  · intro a b c h
    rw [rowCmp_eq_keyed] at h
    rw [rowCmp_eq_keyed, rowCmp_eq_keyed]
    exact hk.eq_congr_left c h
  · intro a b
    rw [rowCmp_eq_keyed, rowCmp_eq_keyed]
    exact hk.cmp_swap a b

theorem rowCmp_refl (a : CsvOutputRow) : CsvOutputRow.cmp a a = .eq :=
  rowCmp_lawful.refl_eq a

theorem insertSorted_idem (r : CsvOutputRow) :
    ∀ l : List CsvOutputRow,
      insertSorted r (insertSorted r l) = insertSorted r l := by
  intro l
  induction l with
  | nil => simp [insertSorted, rowCmp_refl]
  | cons x xs ih =>
    cases h : CsvOutputRow.cmp r x with
    | lt => simp [insertSorted, h, rowCmp_refl]
    | eq => simp [insertSorted, h]
    | gt => simp [insertSorted, h, ih]

theorem insertSorted_of_mem_eq {r : CsvOutputRow} :
    ∀ {l : List CsvOutputRow},
      l.Pairwise (fun a b => CsvOutputRow.cmp a b = .lt) →
      (∃ x ∈ l, CsvOutputRow.cmp r x = .eq) → insertSorted r l = l := by
  intro l
  induction l with
  | nil =>
    intro _ hex
    simp at hex
  | cons y ys ih =>
    intro hp hex
    obtain ⟨x, hx, hrx⟩ := hex
    rcases List.mem_cons.mp hx with rfl | hx'
    · simp [insertSorted, hrx]
    · have hyx : CsvOutputRow.cmp y x = .lt := (List.pairwise_cons.mp hp).1 x hx'
      have hry : CsvOutputRow.cmp r y = .gt := by
        have h1 : CsvOutputRow.cmp r y = CsvOutputRow.cmp x y :=
          rowCmp_lawful.eq_congr_left y hrx
        rw [h1, rowCmp_lawful.cmp_swap x y, hyx]
        rfl
      simp [insertSorted, hry,
        ih (List.pairwise_cons.mp hp).2 ⟨x, hx', hrx⟩]

theorem insertSorted_countP_eq_one {r : CsvOutputRow} :
    ∀ {l : List CsvOutputRow},
      l.Pairwise (fun a b => CsvOutputRow.cmp a b = .lt) →
      (insertSorted r l).countP (fun x => CsvOutputRow.cmp r x == .eq) = 1 := by
  intro l
  induction l with
  | nil =>
    intro _
    show List.countP (fun x => CsvOutputRow.cmp r x == Ordering.eq) [r] = 1
    rw [List.countP_cons, List.countP_nil, rowCmp_refl]
    decide
  | cons x xs ih =>
    intro hp
    have hhead := (List.pairwise_cons.mp hp).1
    have htail := (List.pairwise_cons.mp hp).2
    cases h : CsvOutputRow.cmp r x with
    | lt =>
      have hzero : ∀ y ∈ x :: xs, ¬ (CsvOutputRow.cmp r y == Ordering.eq) = true := by
        intro y hy
        rcases List.mem_cons.mp hy with rfl | hy'
        · rw [h]
          decide
        · have hlt : CsvOutputRow.cmp r y = .lt :=
            rowCmp_lawful.lt_trans h (hhead y hy')
          rw [hlt]
          decide
      rw [show insertSorted r (x :: xs) = r :: x :: xs by simp [insertSorted, h]]
      rw [List.countP_cons, List.countP_eq_zero.mpr hzero, rowCmp_refl]
      decide
    | eq =>
      have hzero : ∀ y ∈ xs, ¬ (CsvOutputRow.cmp r y == Ordering.eq) = true := by
        intro y hy
        have hc : CsvOutputRow.cmp r y = CsvOutputRow.cmp x y :=
          rowCmp_lawful.eq_congr_left y h
        rw [hc, hhead y hy]
        decide
      rw [show insertSorted r (x :: xs) = x :: xs by simp [insertSorted, h]]
      rw [List.countP_cons, List.countP_eq_zero.mpr hzero, h]
      decide
    | gt =>
      rw [show insertSorted r (x :: xs) = x :: insertSorted r xs by
        simp [insertSorted, h]]
      rw [List.countP_cons, ih htail, h]
      decide

/-- C3: `CsvOutputRow::cmp` is exactly the lexicographic comparison of the
5-tuple (date, currency, amount-as-string, transaction type, payee) — the
memo (and the source) do not participate — and consequently a row with an
earlier date always compares `lt`, whatever the other fields hold. -/
theorem c3_row_order :
    (∀ a b : CsvOutputRow,
      CsvOutputRow.cmp a b = lexCmp5 (rowKey a) (rowKey b)) ∧
    (∀ a b : CsvOutputRow, a.date < b.date → CsvOutputRow.cmp a b = .lt) := by
  constructor
  · intro a b
    rw [rowCmp_eq_keyed]
    rfl
  · intro a b h
    unfold CsvOutputRow.cmp
    rw [show natCmp a.date b.date = .lt from natCmp_lt_iff.mpr h]

/-- Closed instance of `c3_row_order`: the earlier-dated row sorts first even
though every one of its other fields sorts after the later row's fields. -/
theorem c3_row_order_witness :
    sampleRowEarly.date < sampleRowLate.date ∧
    CsvOutputRow.cmp sampleRowEarly sampleRowLate = .lt :=
  ⟨by decide, c3_row_order.2 sampleRowEarly sampleRowLate (by decide)⟩

/-- C4: the `merge_command` post-processing of an N26 row whose transaction
type is `"Presentment"` force-prefixes the amount with a minus sign, so the
row counts as negative (the `Display` direction is `"paid to"`) regardless
of the original sign of the source amount. -/
theorem c4_n26_presentment_negative :
    (∀ upperCurrency currency amount memo : Str,
      postProcessRow Source.N26 upperCurrency currency amount
        "Presentment".data memo = some (currency, '-' :: amount)) ∧
    (∀ amount : Str, '-' ∈ ('-' :: amount)) ∧
    (∀ amount : Str, displayDirection ('-' :: amount) = "paid to".data) := by
  refine ⟨?_, ?_, ?_⟩
  · intro uc c amt m
    simp [postProcessRow]
  · intro amt
    exact List.mem_cons_self '-' amt
  · intro amt
    simp [displayDirection]

/-- C9: the derived equality of `CsvOutputRow` compares all seven fields,
while `cmp` ignores the memo: two rows differing only in their memo are
`Ordering.eq` under `cmp` yet not equal. -/
theorem c9_eq_vs_cmp :
    (∀ a b : CsvOutputRow, beqRow a b = true ↔ a = b) ∧
    (∀ (a : CsvOutputRow) (m : Str), m ≠ a.memo →
      CsvOutputRow.cmp a { a with memo := m } = .eq ∧
      beqRow a { a with memo := m } = false ∧
      a ≠ { a with memo := m }) := by
  constructor
  · intro a b
    cases a
    cases b
    simp [beqRow, CsvOutputRow.mk.injEq, and_assoc]
  · intro a m h
    refine ⟨?_, ?_, ?_⟩
    · simp [CsvOutputRow.cmp, natCmp_refl, strCmp_refl]
    · simp [beqRow]
      exact fun hh => h hh.symm
    · intro heq
      exact h ((congrArg CsvOutputRow.memo heq).symm)

/-- Closed instance of `c9_eq_vs_cmp` at a concrete row and memo. -/
theorem c9_eq_vs_cmp_witness :
    "other".data ≠ sampleRowEarly.memo ∧
    (CsvOutputRow.cmp sampleRowEarly
        { sampleRowEarly with memo := "other".data } = .eq ∧
      beqRow sampleRowEarly { sampleRowEarly with memo := "other".data } = false ∧
      sampleRowEarly ≠ { sampleRowEarly with memo := "other".data }) :=
  ⟨by decide, c9_eq_vs_cmp.2 sampleRowEarly "other".data (by decide)⟩

/-- C5: on a sorted set state, pushing a row that is `cmp`-equal to a present
member is a no-op; pushing is idempotent; and after a push exactly one member
of the set is `cmp`-equal to the pushed row. -/
theorem c5_insert_idempotent :
    (∀ (r : CsvOutputRow) (l : List CsvOutputRow),
      l.Pairwise (fun a b => CsvOutputRow.cmp a b = .lt) →
      (∃ x ∈ l, CsvOutputRow.cmp r x = .eq) →
      insertSorted r l = l) ∧
    (∀ (r : CsvOutputRow) (l : List CsvOutputRow),
      insertSorted r (insertSorted r l) = insertSorted r l) ∧
    (∀ (r : CsvOutputRow) (l : List CsvOutputRow),
      l.Pairwise (fun a b => CsvOutputRow.cmp a b = .lt) →
      (insertSorted r l).countP (fun x => CsvOutputRow.cmp r x == .eq) = 1) :=
  ⟨fun _ _ hp hex => insertSorted_of_mem_eq hp hex,
    fun r l => insertSorted_idem r l,
    fun _ _ hp => insertSorted_countP_eq_one hp⟩

/-- Closed instance of `c5_insert_idempotent`: pushing a row that differs
from the sole member only in its memo (hence `cmp`-equal) leaves the set
unchanged. -/
theorem c5_insert_idempotent_witness :
    ([sampleRowEarly].Pairwise (fun a b => CsvOutputRow.cmp a b = .lt)) ∧
    CsvOutputRow.cmp { sampleRowEarly with memo := "dup".data } sampleRowEarly
      = .eq ∧
    insertSorted { sampleRowEarly with memo := "dup".data } [sampleRowEarly]
      = [sampleRowEarly] :=
  ⟨by simp, by decide,
    c5_insert_idempotent.1 { sampleRowEarly with memo := "dup".data }
      [sampleRowEarly] (by simp) ⟨sampleRowEarly, by simp, by decide⟩⟩

/-- C8 counterexample: `"abc\""` is not enclosed in double quotes (it has no
leading quote), yet `strip_quotes` changes it by removing the trailing
quote — against the claim that a string not enclosed in double quotes is
left unchanged by the quote-stripping step. -/
theorem c8_strip_quotes_counterexample :
    "abc\"".data.head? ≠ some '"' ∧
    strip_quotes "abc\"".data ≠ "abc\"".data ∧
    strip_quotes "abc\"".data = "abc".data := by
  refine ⟨by decide, by decide, by decide⟩

/-- C8 (amended): `strip_quotes` removes the enclosing pair when the string
both starts and ends with a double quote (with at least one further
character); it also removes a trailing double quote when there is no leading
one; otherwise the string is unchanged — in particular a string with only a
LEADING double quote is unchanged.  `CsvOutputRow::new` applies this step
exactly once to the amount and to every text field (the amount additionally
has dots turned into commas, and the stripped currency is then defaulted to
`"EUR"` when empty or `"null"`). -/
theorem c8_strip_quotes_amended :
    (∀ rest : Str, rest.getLast? = some '"' →
      strip_quotes ('"' :: rest) = rest.dropLast) ∧
    (∀ rest : Str, rest.getLast? ≠ some '"' →
      strip_quotes ('"' :: rest) = '"' :: rest) ∧
    (∀ s : Str, s.head? ≠ some '"' → s.getLast? = some '"' →
      strip_quotes s = s.dropLast) ∧
    (∀ s : Str, s.head? ≠ some '"' → s.getLast? ≠ some '"' →
      strip_quotes s = s) ∧
    (∀ (date : Nat) (source currency amount transaction_type payee memo : Str),
      (CsvOutputRow.new date source currency amount transaction_type payee
        memo).amount = dotToComma (strip_quotes amount) ∧
      (CsvOutputRow.new date source currency amount transaction_type payee
        memo).transaction_type = strip_quotes transaction_type ∧
      (CsvOutputRow.new date source currency amount transaction_type payee
        memo).payee = strip_quotes payee ∧
      (CsvOutputRow.new date source currency amount transaction_type payee
        memo).memo = strip_quotes memo ∧
      (CsvOutputRow.new date source currency amount transaction_type payee
        memo).currency =
        (if strip_quotes currency = [] ∨ strip_quotes currency = "null".data
          then "EUR".data else strip_quotes currency)) := by
  refine ⟨?_, ?_, ?_, ?_, ?_⟩
  · intro rest h
    simp [strip_quotes, rstripFirst, rstripLast, h]
  · intro rest h
    simp [strip_quotes, rstripFirst, rstripLast, h]
  · intro s h1 h2
    cases s with
    | nil => simp at h2
    | cons x rest =>
      have hx : x ≠ '"' := by
        simpa using h1
      simp [strip_quotes, rstripFirst, rstripLast, hx, h2]
  · intro s h1 h2
    cases s with
    | nil => simp [strip_quotes, rstripFirst, rstripLast]
    | cons x rest =>
      have hx : x ≠ '"' := by
        simpa using h1
      simp [strip_quotes, rstripFirst, rstripLast, hx, h2]
  · intro date source currency amount transaction_type payee memo
    exact ⟨rfl, rfl, rfl, rfl, rfl⟩

/-- Closed instance of `c8_strip_quotes_amended`: the enclosed case strips
the pair, the trailing-only case drops the trailing quote. -/
theorem c8_strip_quotes_amended_witness :
    ("x\"".data.getLast? = some '"') ∧
    strip_quotes ('"' :: "x\"".data) = "x\"".data.dropLast ∧
    ("cd\"".data.head? ≠ some '"' ∧ "cd\"".data.getLast? = some '"') ∧
    strip_quotes "cd\"".data = "cd\"".data.dropLast :=
  ⟨by decide,
    c8_strip_quotes_amended.1 "x\"".data (by decide),
    ⟨by decide, by decide⟩,
    c8_strip_quotes_amended.2.2.1 "cd\"".data (by decide) (by decide)⟩

/-- C2: `filter_data_frame` maps each of the six known 5-column fingerprints
to the `Source` bound to it and to that fingerprint's 6-column selection
plan (for the two N26 fingerprints the amount column of the plan depends on
the requested currency); every returned plan has `NUM_SELECT_COLUMNS`
columns; and any other first-5-column list yields `none`, the model of the
fatal `panic!` on an unknown CSV format. -/
theorem c2_filter_data_frame :
    (∀ (cols : List String) (cur : String),
      cols.take NUM_FIRST_COLUMNS = PAYPAL_COLUMNS →
      filter_data_frame cols cur = some (Source.PayPal,
        ["Date", "Currency", "Gross", "Type", "Name", "Transaction ID"])) ∧
    (∀ (cols : List String) (cur : String),
      cols.take NUM_FIRST_COLUMNS = PAYPAL_COLUMNS_OLD →
      filter_data_frame cols cur = some (Source.PayPal,
        ["Date", "Currency", "Gross", "Description", "Name",
          "Transaction ID"])) ∧
    (∀ (cols : List String) (cur : String),
      cols.take NUM_FIRST_COLUMNS = N26_COLUMNS →
      filter_data_frame cols cur = some (Source.N26,
        ["Date", "Type Foreign Currency",
          if cur = "EUR" then "Amount (EUR)" else "Amount (Foreign Currency)",
          "Transaction type", "Payee", "Payment reference"])) ∧
    (∀ (cols : List String) (cur : String),
      cols.take NUM_FIRST_COLUMNS = N26_COLUMNS_2024_09 →
      filter_data_frame cols cur = some (Source.N26,
        ["Booking Date", "Original Currency",
          if cur = "EUR" then "Amount (EUR)" else "Original Amount",
          "Type", "Partner Name", "Payment Reference"])) ∧
    (∀ (cols : List String) (cur : String),
      cols.take NUM_FIRST_COLUMNS = DKB_COLUMNS →
      filter_data_frame cols cur = some (Source.DKB,
        ["Buchungstag", "Mandatsreferenz", "Betrag (EUR)", "Buchungstext",
          "Auftraggeber / Begünstigter", "Verwendungszweck"])) ∧
    (∀ (cols : List String) (cur : String),
      cols.take NUM_FIRST_COLUMNS = DKB_COLUMNS_2024_09 →
      filter_data_frame cols cur = some (Source.DKB,
        ["Buchungsdatum", "Mandatsreferenz", "Betrag (€)", "Umsatztyp",
          "Zahlungsempfänger*in", "Verwendungszweck"])) ∧
    (∀ (cols : List String) (cur : String),
      cols.take NUM_FIRST_COLUMNS ≠ PAYPAL_COLUMNS →
      cols.take NUM_FIRST_COLUMNS ≠ PAYPAL_COLUMNS_OLD →
      cols.take NUM_FIRST_COLUMNS ≠ N26_COLUMNS →
      cols.take NUM_FIRST_COLUMNS ≠ N26_COLUMNS_2024_09 →
      cols.take NUM_FIRST_COLUMNS ≠ DKB_COLUMNS →
      cols.take NUM_FIRST_COLUMNS ≠ DKB_COLUMNS_2024_09 →
      filter_data_frame cols cur = none) ∧
    (∀ (cols : List String) (cur : String) (src : Source) (plan : List String),
      filter_data_frame cols cur = some (src, plan) →
      plan.length = NUM_SELECT_COLUMNS) := by
  refine ⟨?_, ?_, ?_, ?_, ?_, ?_, ?_, ?_⟩
  · intro cols cur h
    simp [filter_data_frame, h]
  · intro cols cur h
    simp [filter_data_frame, h, PAYPAL_COLUMNS, PAYPAL_COLUMNS_OLD]
  · intro cols cur h
    by_cases hcur : cur = "EUR"
    · subst hcur
      simp [filter_data_frame, h, PAYPAL_COLUMNS, PAYPAL_COLUMNS_OLD,
        N26_COLUMNS, N26_COLUMNS_2024_09]
    · simp [filter_data_frame, h, hcur, PAYPAL_COLUMNS, PAYPAL_COLUMNS_OLD,
        N26_COLUMNS, N26_COLUMNS_2024_09]
  · intro cols cur h
    by_cases hcur : cur = "EUR"
    · subst hcur
      simp [filter_data_frame, h, PAYPAL_COLUMNS, PAYPAL_COLUMNS_OLD,
        N26_COLUMNS, N26_COLUMNS_2024_09]
    · simp [filter_data_frame, h, hcur, PAYPAL_COLUMNS, PAYPAL_COLUMNS_OLD,
        N26_COLUMNS, N26_COLUMNS_2024_09]
  · intro cols cur h
    simp [filter_data_frame, h, PAYPAL_COLUMNS, PAYPAL_COLUMNS_OLD,
      N26_COLUMNS, N26_COLUMNS_2024_09, DKB_COLUMNS, DKB_COLUMNS_2024_09]
  · intro cols cur h
    simp [filter_data_frame, h, PAYPAL_COLUMNS, PAYPAL_COLUMNS_OLD,
      N26_COLUMNS, N26_COLUMNS_2024_09, DKB_COLUMNS, DKB_COLUMNS_2024_09]
  · intro cols cur h1 h2 h3 h4 h5 h6
    simp [filter_data_frame, h1, h2, h3, h4, h5, h6]
  · intro cols cur src plan h
    simp only [filter_data_frame] at h
    split_ifs at h
    all_goals
      injection h with h2
    all_goals
      injection h2 with hsrc hplan
    all_goals
      subst hplan
    all_goals rfl

/-- Closed instance of `c2_filter_data_frame`: a PayPal header (with one
extra column) matches the PayPal fingerprint, and an N26 header with a
non-EUR currency request selects the foreign-amount column. -/
theorem c2_filter_data_frame_witness :
    (["Date", "Time", "TimeZone", "Name", "Type",
        "Extra"].take NUM_FIRST_COLUMNS = PAYPAL_COLUMNS) ∧
    filter_data_frame ["Date", "Time", "TimeZone", "Name", "Type", "Extra"]
        "EUR"
      = some (Source.PayPal,
        ["Date", "Currency", "Gross", "Type", "Name", "Transaction ID"]) ∧
    filter_data_frame
        ["Date", "Payee", "Account number", "Transaction type",
          "Payment reference"] "BRL"
      = some (Source.N26,
        ["Date", "Type Foreign Currency",
          if "BRL" = "EUR" then "Amount (EUR)" else "Amount (Foreign Currency)",
          "Transaction type", "Payee", "Payment reference"]) :=
  ⟨by decide,
    c2_filter_data_frame.1 ["Date", "Time", "TimeZone", "Name", "Type",
      "Extra"] "EUR" (by decide),
    c2_filter_data_frame.2.2.1 ["Date", "Payee", "Account number",
      "Transaction type", "Payment reference"] "BRL" (by decide)⟩
